import Mathlib

/-!
Verification of the watchtower controller command supervisor.

The definitions below are a shallow embedding of the Go source
(`internal/cmd/commands/controller`): the listener-purpose validation loop of
`Command.Run`, the startup stage sequencing of `Run`, the signal event loop of
`Command.WaitForInterrupt`, the reload-callback walk of `Command.Reload`, and
the dev-mode listener address overrides of `Command.ParseFlagsAndConfig`.
-/

namespace Watchtower

/-- A listener configuration, as consumed by the purpose-validation loop of
`Command.Run`: the fields it reads or writes are `Purpose` (a list of strings),
`TLSDisable`, and (in `ParseFlagsAndConfig`) `Address`. -/
structure Listener where
  address : String
  purpose : List String
  tlsDisable : Bool
  deriving DecidableEq, Repr

/-- The configuration errors the validation loop of `Command.Run` can report
(each constructor corresponds to one `c.UI.Error(...)` / `return 1` site). -/
inductive ValErr where
  /-- "Unknown listener purpose %q" (line 202). -/
  | unknownPurpose (p : String)
  /-- "Invalid listener purpose set: %v" (line 212). -/
  | invalidPurposeSet (ps : List String)
  /-- "TLS cannot be disabled on listener when serving both ... purposes" (line 216). -/
  | tlsDisabledOnDualPurpose
  /-- "No listener marked for cluster purpose found, but listener explicitly marked for api was found" (line 224). -/
  | noClusterListener
  deriving DecidableEq, Repr

/-- The body of `case 2:` in the purpose switch of `Command.Run` (lines
210-220): requires the purpose list to contain both "api" and "cluster",
forbids `TLSDisable`, and on success marks both the api and cluster flags.
Returns the (possibly rewritten) listener together with the two flag
contributions `(foundAPI, foundCluster)`. -/
def bothPurposeCheck (ln : Listener) : Except ValErr (Listener × Bool × Bool) :=
  if ¬ ("api" ∈ ln.purpose) ∨ ¬ ("cluster" ∈ ln.purpose) then
    .error (.invalidPurposeSet ln.purpose)
  else if ln.tlsDisable then
    .error .tlsDisabledOnDualPurpose
  else
    .ok (ln, true, true)

/-- One iteration of the purpose-validation loop in `Command.Run` (lines
193-221): a `switch` on the number of declared purposes. Exactly one purpose:
"cluster" or "api" sets the matching flag, anything else is an error. Zero
purposes: the purpose list is rewritten to `["api", "cluster"]` and control
falls through to the two-purpose case. Two purposes: `bothPurposeCheck`. Any
other length matches no case and the listener passes untouched with no flag
set. -/
def checkListener (ln : Listener) : Except ValErr (Listener × Bool × Bool) :=
  match ln.purpose with
  | [p] =>
    if p = "cluster" then .ok (ln, false, true)
    else if p = "api" then .ok (ln, true, false)
    else .error (.unknownPurpose p)
  | [] => bothPurposeCheck { ln with purpose := ["api", "cluster"] }
  | [_, _] => bothPurposeCheck ln
  | _ => .ok (ln, false, false)

/-- The `for _, lnConfig := range c.Config.Listeners` loop of `Command.Run`,
threading the `foundAPI` / `foundCluster` flags and returning the listener
list as left behind by the loop (the zero-purpose case mutates the listener in
place). -/
def validateLoop : List Listener → Bool → Bool → Except ValErr (List Listener × Bool × Bool)
  | [], foundAPI, foundCluster => .ok ([], foundAPI, foundCluster)
  | ln :: rest, foundAPI, foundCluster =>
    match checkListener ln with
    | .error e => .error e
    | .ok (ln2, a, c) =>
      match validateLoop rest (foundAPI || a) (foundCluster || c) with
      | .error e => .error e
      | .ok (rest2, fa, fc) => .ok (ln2 :: rest2, fa, fc)

/-- The complete controller-specific listener validation of `Command.Run`
(lines 190-226): the per-listener loop followed by the topology check
`if foundAPI && !foundCluster`. On success it returns the listener list as the
loop left it. -/
def validateListeners (ls : List Listener) : Except ValErr (List Listener) :=
  match validateLoop ls false false with
  | .error e => .error e
  | .ok (ls2, foundAPI, foundCluster) =>
    if foundAPI && !foundCluster then .error .noClusterListener
    else .ok ls2

/-- The `(foundAPI, foundCluster)` flags recorded by the validation loop, as
examined by the final topology check. -/
def validateFlags (ls : List Listener) : Except ValErr (Bool × Bool) :=
  match validateLoop ls false false with
  | .error e => .error e
  | .ok (_, a, c) => .ok (a, c)

/-- Whether an `Except` result is a success. -/
def exceptOk {ε α : Type _} : Except ε α → Bool
  | .ok _ => true
  | .error _ => false

instance {ε α : Type _} [DecidableEq ε] [DecidableEq α] : DecidableEq (Except ε α) := fun x y =>
  match x, y with
  | .ok a, .ok b =>
    if h : a = b then .isTrue (congrArg Except.ok h)
    else .isFalse (fun hc => h (Except.ok.inj hc))
  | .ok _, .error _ => .isFalse (fun hc => Except.noConfusion hc)
  | .error _, .ok _ => .isFalse (fun hc => Except.noConfusion hc)
  | .error e, .error f =>
    if h : e = f then .isTrue (congrArg Except.error h)
    else .isFalse (fun hc => h (Except.error.inj hc))

example : validateListeners [⟨"a", ["cluster"], false⟩] = .ok [⟨"a", ["cluster"], false⟩] := by decide

example : validateListeners [⟨"a", ["api"], false⟩] = .error .noClusterListener := by decide

example : validateListeners [⟨"a", [], false⟩] = .ok [⟨"a", ["api", "cluster"], false⟩] := by decide

example : validateListeners [⟨"a", [], true⟩] = .error .tlsDisabledOnDualPurpose := by decide

example : validateListeners [⟨"a", ["api", "b", "c"], false⟩] = .ok [⟨"a", ["api", "b", "c"], false⟩] := by decide

/-! ## The startup sequencing of `Command.Run` (lines 149-257)

`Run` calls a fixed sequence of collaborators, returning 1 at the first
failure. The environment below records the outcome of each external call;
`run` replays the control flow of the function on such an environment. The
single `defer c.RunShutdownFuncs(c.UI)` is registered at line 246, after the
PID-file write and the dev-database creation. -/

/-- Outcomes of the external collaborator calls made by `Command.Run`, in
source order: `ParseFlagsAndConfig`, `SetupLogging`, `SetupMetrics`,
`SetupKMSes`, the configured listener list, `SetupListeners`, `StorePidFile`,
the `flagDev` flag, `CreateDevDatabase`, and `Start`. -/
structure RunEnv where
  parseOk : Bool
  loggingOk : Bool
  metricsOk : Bool
  kmsOk : Bool
  listeners : List Listener
  setupListenersOk : Bool
  storePidOk : Bool
  flagDev : Bool
  createDevDbOk : Bool
  startOk : Bool
  deriving DecidableEq, Repr

/-- What a call to `Command.Run` produced: its return value, whether the
deferred `RunShutdownFuncs` call executed before returning, and whether the
dev-database teardown (appended to `ShutdownFuncs` at line 243) executed. -/
structure RunResult where
  exitCode : Nat
  shutdownFuncsRan : Bool
  devDbTeardownRan : Bool
  deriving DecidableEq, Repr

/-- The control flow of `Command.Run`: each stage failure returns 1
immediately. Only after the dev-database branch does `defer
c.RunShutdownFuncs(c.UI)` (line 246) get registered, so only the `Start`
failure path and the event-loop exit run the shutdown funcs; the dev-database
teardown is among them exactly when `flagDev` is set. `WaitForInterrupt`
always returns 0. -/
def run (e : RunEnv) : RunResult :=
  if !e.parseOk then ⟨1, false, false⟩
  else if !e.loggingOk then ⟨1, false, false⟩
  else if !e.metricsOk then ⟨1, false, false⟩
  else if !e.kmsOk then ⟨1, false, false⟩
  else
    match validateListeners e.listeners with
    | .error _ => ⟨1, false, false⟩
    | .ok _ =>
      if !e.setupListenersOk then ⟨1, false, false⟩
      else if !e.storePidOk then ⟨1, false, false⟩
      else if e.flagDev && !e.createDevDbOk then ⟨1, false, false⟩
      else if !e.startOk then ⟨1, true, e.flagDev⟩
      else ⟨0, true, e.flagDev⟩

/-! ## The event loop of `Command.WaitForInterrupt` (lines 342-417) -/

/-- The `hclog` levels the reload handler can select (lines 384-400). -/
inductive HLevel where
  | trace
  | debug
  | info
  | warn
  | error
  deriving DecidableEq, Repr

/-- The slice of `config.Config` the event loop reads on reload. -/
structure Config where
  logLevel : String
  deriving DecidableEq, Repr

/-- Model of `strings.HasPrefix`, computed over the character lists. -/
def hasPrefixStr (pre s : String) : Bool :=
  List.isPrefixOf pre.data s.data

/-- Model of `strings.TrimSpace`, computed over the character lists. -/
def trimStr (s : String) : String :=
  ⟨((s.data.dropWhile Char.isWhitespace).reverse.dropWhile Char.isWhitespace).reverse⟩

/-- Model of `strings.ToLower`, computed over the character lists. -/
def toLowerStr (s : String) : String :=
  ⟨s.data.map Char.toLower⟩

/-- The log-level vocabulary of the reload handler (the inner `switch
configLogLevel` at lines 386-400), applied to the lowercased, whitespace-
trimmed level string; an unrecognized value yields `none`. -/
def parseLogLevel (s : String) : Option HLevel :=
  let t := toLowerStr (trimStr s)
  if t == "trace" then some .trace
  else if t == "debug" then some .debug
  else if t == "notice" || t == "info" || t == "" then some .info
  else if t == "warn" || t == "warning" then some .warn
  else if t == "err" || t == "error" then some .error
  else none

/-- The observable actions the event loop performs while handling an event. -/
inductive Action where
  /-- `c.UI.Output(...)`. -/
  | output (msg : String)
  /-- `c.Logger.Error(...)`. -/
  | logError (msg : String)
  /-- `c.controller.SetLogLevel(level)` (line 401). -/
  | setLogLevel (l : HLevel)
  /-- `c.controller.Shutdown()` (line 351). -/
  | controllerShutdown
  /-- The `RUNRELOADFUNCS` label: the `c.Reload()` call (line 405). -/
  | runReloadFuncs
  /-- The goroutine stack dump of the SIGUSR2 branch (lines 410-412). -/
  | stackDump
  deriving DecidableEq, Repr

/-- The SIGHUP branch of `WaitForInterrupt` (lines 357-407). `load` is the
outcome of `config.LoadFile(c.flagConfig)`: `.error` for a parse failure,
`.ok none` for a nil result, `.ok (some conf)` otherwise. Every control path
(the three `goto RUNRELOADFUNCS` jumps, the unknown-level branch, and the two
fall-throughs) ends at the `c.Reload()` call. -/
def handleSighup (flagConfig : String) (load : Except Unit (Option Config)) : List Action :=
  if flagConfig == "" then [.runReloadFuncs]
  else
    match load with
    | .error _ => [.logError "could not reload config", .runReloadFuncs]
    | .ok none => [.logError "no config found at reload time", .runReloadFuncs]
    | .ok (some newConf) =>
      if newConf.logLevel == "" then [.runReloadFuncs]
      else
        match parseLogLevel newConf.logLevel with
        | some lvl => [.setLogLevel lvl, .runReloadFuncs]
        | none => [.logError "unknown log level found on reload", .runReloadFuncs]

/-- The triggers the `select` of `WaitForInterrupt` reacts to. A value on or
closure of `ShutdownCh` are the same case, modelled as `.shutdown`; a SIGHUP
carries the outcome the subsequent `config.LoadFile` call would produce. -/
inductive Event where
  | shutdown
  | sighup (load : Except Unit (Option Config))
  | sigusr2
  deriving DecidableEq, Repr

/-- The supervisor state the loop maintains: the `shutdownTriggered` local of
`WaitForInterrupt`, and whether the `cleanupGuard` (the `sync.Once` declared
at line 33) has been consumed. -/
structure LoopState where
  shutdownTriggered : Bool
  guardConsumed : Bool
  deriving DecidableEq, Repr

/-- The state at entry to `WaitForInterrupt`: `shutdownTriggered := false`
(line 344), the guard untouched. -/
def initialLoopState : LoopState := ⟨false, false⟩

/-- One `select` arm of `WaitForInterrupt`: the shutdown case prints, calls
`c.controller.Shutdown()` directly (line 351 — not through `cleanupGuard`),
and sets `shutdownTriggered`; the SIGHUP case runs `handleSighup`; the
SIGUSR2 case dumps stacks. No case touches `cleanupGuard`. -/
def processEvent (flagConfig : String) (s : LoopState) : Event → LoopState × List Action
  | .shutdown =>
    ({ s with shutdownTriggered := true },
     [.output "==> Watchtower controller shutdown triggered", .controllerShutdown])
  | .sighup load =>
    (s, .output "==> Watchtower controller reload triggered" :: handleSighup flagConfig load)
  | .sigusr2 => (s, [.stackDump])

/-- The `for !shutdownTriggered` loop of `WaitForInterrupt`, replayed over a
queue of pending events: the flag is tested before each wait, so events
queued after the first processed shutdown trigger are never handled. Returns
the final state and the concatenated action trace. -/
def runLoop (flagConfig : String) : LoopState → List Event → LoopState × List Action
  | s, [] => (s, [])
  | s, e :: rest =>
    if s.shutdownTriggered then (s, [])
    else
      let (s2, acts) := processEvent flagConfig s e
      let (s3, acts2) := runLoop flagConfig s2 rest
      (s3, acts ++ acts2)

/-! ## The reload-callback walk of `Command.Reload` (lines 419-446)

`c.ReloadFuncs` is a Go `map[string][]func() error`: registration appends to
the slice under a key, so the registry is modelled as the list of
`(key, callback)` registrations in registration order, with `funcsFor`
recovering the per-key slice. Go's `for k, relFuncs := range c.ReloadFuncs`
visits keys in an unspecified order, so the walk is parametrised by a key
iteration order, constrained to visit exactly the registered keys once. -/

/-- A reload callback: an identity and the error it returns when invoked
(`none` for success). A registered entry may also be a nil function, which
`Reload` skips (`if relFunc != nil`), hence `Option CB` in registries. -/
structure CB where
  id : Nat
  result : Option String
  deriving DecidableEq, Repr

/-- The inner `for _, relFunc := range relFuncs` loop of `Reload` (lines
428-434): invokes each non-nil callback in slice order, collecting every
invoked callback and, for each failure, the wrapped error appended to the
`multierror`. A failure does not break the loop. -/
def runFuncs : List (Option CB) → List CB × List String
  | [] => ([], [])
  | f :: rest =>
    let (inv, errs) := runFuncs rest
    match f with
    | none => (inv, errs)
    | some cb =>
      match cb.result with
      | none => (cb :: inv, errs)
      | some e => (cb :: inv, ("error encountered reloading listener: " ++ e) :: errs)

/-- The slice `c.ReloadFuncs[k]`: the callbacks registered under key `k`, in
registration order. -/
def funcsFor (k : String) (regs : List (String × Option CB)) : List (Option CB) :=
  (regs.filter (fun r => r.1 == k)).map (fun r => r.2)

/-- The outer `for k, relFuncs := range c.ReloadFuncs` loop of `Reload`
(lines 425-436), walking the keys in the iteration order `ko`: keys with the
`"listener|"` prefix have their slice run, every other key is ignored (the
`switch` has a single `case`). -/
def reloadRun (regs : List (String × Option CB)) : List String → List CB × List String
  | [] => ([], [])
  | k :: ks =>
    if hasPrefixStr "listener|" k then
      ((runFuncs (funcsFor k regs)).1 ++ (reloadRun regs ks).1,
       (runFuncs (funcsFor k regs)).2 ++ (reloadRun regs ks).2)
    else reloadRun regs ks

/-- The whole of `Command.Reload`: the walk followed by `reloadErrors.ErrorOrNil()` —
`none` exactly when no error was collected, otherwise the collected list. -/
def reload (regs : List (String × Option CB)) (ko : List String) :
    List CB × Option (List String) :=
  let (inv, errs) := reloadRun regs ko
  (inv, if errs = [] then none else some errs)

/-- A key sequence is a possible Go map iteration order for a registry iff it
visits each registered key exactly once (Go fixes no order beyond that). -/
def validIterationOrder (regs : List (String × Option CB)) (ko : List String) : Prop :=
  ko.Nodup ∧ ∀ k, k ∈ ko ↔ k ∈ regs.map (fun r => r.1)

/-- The ids of the non-nil callbacks registered under `"listener|"`-prefixed
keys, in registration order across the whole registry. -/
def registrationOrderIds (regs : List (String × Option CB)) : List Nat :=
  (regs.filter (fun r => hasPrefixStr "listener|" r.1)).filterMap (fun r => r.2.map CB.id)

/-! ## The dev-mode address overrides of `Command.ParseFlagsAndConfig`
(lines 295-310): listeners declaring exactly one purpose have their address
overwritten from the matching dev flag when that flag is nonempty. -/

/-- The `for _, l := range c.Config.Listeners` loop of `ParseFlagsAndConfig`
in dev mode: skips listeners not declaring exactly one purpose, otherwise
overrides the address of "api" / "cluster" listeners from the respective
nonempty flag. -/
def applyDevListenAddrs (apiAddr clusterAddr : String) (ls : List Listener) : List Listener :=
  ls.map fun l =>
    match l.purpose with
    | [p] =>
      if p = "api" then (if apiAddr ≠ "" then { l with address := apiAddr } else l)
      else if p = "cluster" then (if clusterAddr ≠ "" then { l with address := clusterAddr } else l)
      else l
    | _ => l

example : (runLoop "" initialLoopState [.shutdown, .shutdown]).2.count .controllerShutdown = 1 := by decide

example : reload [("listener|x", some ⟨1, some "boom"⟩), ("listener|x", some ⟨2, none⟩)] ["listener|x"]
    = ([⟨1, some "boom"⟩, ⟨2, none⟩], some ["error encountered reloading listener: boom"]) := by decide

/-! ## Helper lemmas about the validation loop -/

theorem checkListener_ge3 (ln : Listener) (h : 3 ≤ ln.purpose.length) :
    checkListener ln = .ok (ln, false, false) := by
  obtain ⟨a, ps, t⟩ := ln
  rcases ps with _ | ⟨p, _ | ⟨q, _ | ⟨r, rest⟩⟩⟩
  · simp at h
  · simp at h
  · simp at h
  · rfl

theorem validateLoop_ge3 (ls : List Listener) (h : ∀ ln ∈ ls, 3 ≤ ln.purpose.length)
    (a c : Bool) : validateLoop ls a c = .ok (ls, a, c) := by
  induction ls generalizing a c with
  | nil => rfl
  | cons ln rest ih =>
    have hln := checkListener_ge3 ln (h ln (List.mem_cons_self ln rest))
    simp only [validateLoop, hln, Bool.or_false]
    rw [ih (fun x hx => h x (List.mem_cons_of_mem ln hx)) a c]

/-- C10: a listener declaring three or more purposes matches no case of the
purpose switch in `Run`: it is accepted with no check and marks neither the
api nor the cluster flag, so a configuration whose listeners all declare
three or more purposes passes the whole purpose validation, topology check
included. -/
theorem c10_three_plus_purposes_unexamined :
    (∀ ln : Listener, 3 ≤ ln.purpose.length →
      checkListener ln = .ok (ln, false, false)) ∧
    (∀ ls : List Listener, (∀ ln ∈ ls, 3 ≤ ln.purpose.length) →
      validateListeners ls = .ok ls) := by
  refine ⟨checkListener_ge3, fun ls h => ?_⟩
  simp only [validateListeners, validateLoop_ge3 ls h false false]
  rfl

/-- Witness for C10 at a concrete three-purpose listener. -/
theorem c10_witness :
    checkListener ⟨"a", ["api", "b", "c"], false⟩
        = .ok (⟨"a", ["api", "b", "c"], false⟩, false, false) ∧
    validateListeners [⟨"a", ["api", "b", "c"], false⟩]
        = .ok [⟨"a", ["api", "b", "c"], false⟩] :=
  ⟨c10_three_plus_purposes_unexamined.1 _ (by decide),
   c10_three_plus_purposes_unexamined.2 _ (by decide)⟩

/-- C4: a listener declaring exactly two purposes fails the per-listener
check unless the pair contains both "api" and "cluster" (decided on the
`invalidPurposeSet` branch); a listener serving both purposes — declared
explicitly as a two-element pair containing both, or implicitly via an empty
purpose list — fails on the `tlsDisabledOnDualPurpose` branch when
`TLSDisable` is set, and passes the per-listener check when it is not. -/
theorem c4_dual_purpose_rules (ln : Listener) :
    (ln.purpose.length = 2 → ¬("api" ∈ ln.purpose ∧ "cluster" ∈ ln.purpose) →
      checkListener ln = .error (.invalidPurposeSet ln.purpose)) ∧
    ((ln.purpose = [] ∨
        (ln.purpose.length = 2 ∧ "api" ∈ ln.purpose ∧ "cluster" ∈ ln.purpose)) →
      (ln.tlsDisable = true → checkListener ln = .error .tlsDisabledOnDualPurpose) ∧
      (ln.tlsDisable = false → exceptOk (checkListener ln) = true)) := by
  obtain ⟨a, ps, t⟩ := ln
  constructor
  · intro hlen hnot
    rcases ps with _ | ⟨p, _ | ⟨q, _ | ⟨r, rest⟩⟩⟩
    · simp at hlen
    · simp at hlen
    · show bothPurposeCheck ⟨a, [p, q], t⟩ = .error (.invalidPurposeSet [p, q])
      simp only [bothPurposeCheck]
      rw [if_pos (not_and_or.mp hnot)]
    · simp only [List.length_cons] at hlen
      omega
  · rintro (hps | ⟨hlen, hapi, hcl⟩)
    · subst hps
      refine ⟨fun ht => ?_, fun ht => ?_⟩
      · have ht2 : t = true := ht
        subst ht2
        rfl
      · have ht2 : t = false := ht
        subst ht2
        rfl
    · rcases ps with _ | ⟨p, _ | ⟨q, _ | ⟨r, rest⟩⟩⟩
      · simp at hlen
      · simp at hlen
      · have hcond : ¬(¬("api" ∈ [p, q]) ∨ ¬("cluster" ∈ [p, q])) := by
          simp only [not_or, not_not]
          exact ⟨hapi, hcl⟩
        refine ⟨fun ht => ?_, fun ht => ?_⟩
        · have ht2 : t = true := ht
          subst ht2
          show bothPurposeCheck ⟨a, [p, q], true⟩ = .error .tlsDisabledOnDualPurpose
          simp only [bothPurposeCheck]
          rw [if_neg hcond]
          rfl
        · have ht2 : t = false := ht
          subst ht2
          show exceptOk (bothPurposeCheck ⟨a, [p, q], false⟩) = true
          simp only [bothPurposeCheck]
          rw [if_neg hcond]
          rfl
      · simp only [List.length_cons] at hlen
        omega

/-! ## Outcome projections for comparing validation runs -/

/-- The error the whole listener validation reports, `none` on success. -/
def valErrOf (ls : List Listener) : Option ValErr :=
  match validateListeners ls with
  | .error e => some e
  | .ok _ => none

/-- A loop result without the rewritten listener list: the error, or the
`(foundAPI, foundCluster)` flags the topology check will examine. -/
def loopOutcome : Except ValErr (List Listener × Bool × Bool) → Except ValErr (Bool × Bool)
  | .error e => .error e
  | .ok (_, a, c) => .ok (a, c)

/-- A per-listener check without the rewritten listener: the error, or the
flag contributions. -/
def stepOutcome : Except ValErr (Listener × Bool × Bool) → Except ValErr (Bool × Bool)
  | .error e => .error e
  | .ok (_, a, c) => .ok (a, c)

theorem stepOutcome_cases {r1 r2 : Except ValErr (Listener × Bool × Bool)}
    (h : stepOutcome r1 = stepOutcome r2) :
    (∃ e, r1 = .error e ∧ r2 = .error e) ∨
    (∃ l1 l2 a c, r1 = .ok (l1, a, c) ∧ r2 = .ok (l2, a, c)) := by
  cases r1 with
  | error e =>
    cases r2 with
    | error f =>
      exact Or.inl ⟨e, rfl, by rw [Except.error.inj h]⟩
    | ok v => exact absurd h (by cases v with | mk l ac => cases ac; exact fun hc => Except.noConfusion hc)
  | ok v =>
    cases r2 with
    | error f => exact absurd h (by cases v with | mk l ac => cases ac; exact fun hc => Except.noConfusion hc)
    | ok w =>
      obtain ⟨l1, a1, c1⟩ := v
      obtain ⟨l2, a2, c2⟩ := w
      have h2 : ((a1, c1) : Bool × Bool) = (a2, c2) := Except.ok.inj h
      exact Or.inr ⟨l1, l2, a1, c1, rfl, by rw [h2]⟩

theorem loopOutcome_cases {r1 r2 : Except ValErr (List Listener × Bool × Bool)}
    (h : loopOutcome r1 = loopOutcome r2) :
    (∃ e, r1 = .error e ∧ r2 = .error e) ∨
    (∃ l1 l2 a c, r1 = .ok (l1, a, c) ∧ r2 = .ok (l2, a, c)) := by
  cases r1 with
  | error e =>
    cases r2 with
    | error f =>
      exact Or.inl ⟨e, rfl, by rw [Except.error.inj h]⟩
    | ok v => exact absurd h (by cases v with | mk l ac => cases ac; exact fun hc => Except.noConfusion hc)
  | ok v =>
    cases r2 with
    | error f => exact absurd h (by cases v with | mk l ac => cases ac; exact fun hc => Except.noConfusion hc)
    | ok w =>
      obtain ⟨l1, a1, c1⟩ := v
      obtain ⟨l2, a2, c2⟩ := w
      have h2 : ((a1, c1) : Bool × Bool) = (a2, c2) := Except.ok.inj h
      exact Or.inr ⟨l1, l2, a1, c1, rfl, by rw [h2]⟩

/-- Replacing one listener by another with the same per-listener outcome
leaves the loop outcome (error and flags) unchanged. -/
theorem validateLoop_congr (x y : Listener)
    (hxy : stepOutcome (checkListener x) = stepOutcome (checkListener y)) :
    ∀ (pre post : List Listener) (a c : Bool),
      loopOutcome (validateLoop (pre ++ x :: post) a c)
        = loopOutcome (validateLoop (pre ++ y :: post) a c) := by
  intro pre
  induction pre with
  | nil =>
    intro post a c
    show loopOutcome (validateLoop (x :: post) a c) = loopOutcome (validateLoop (y :: post) a c)
    simp only [validateLoop]
    rcases stepOutcome_cases hxy with ⟨e, hx, hy⟩ | ⟨l1, l2, fa, fc, hx, hy⟩
    · rw [hx, hy]
    · rw [hx, hy]
      dsimp only
      cases validateLoop post (a || fa) (c || fc) with
      | error e => rfl
      | ok w => obtain ⟨r, ra, rc⟩ := w; rfl
  | cons p pre ih =>
    intro post a c
    show loopOutcome (validateLoop (p :: (pre ++ x :: post)) a c)
        = loopOutcome (validateLoop (p :: (pre ++ y :: post)) a c)
    simp only [validateLoop]
    cases checkListener p with
    | error e => rfl
    | ok v =>
      obtain ⟨p2, pa, pc⟩ := v
      dsimp only
      have h2 := ih post (a || pa) (c || pc)
      rcases loopOutcome_cases h2 with ⟨e, h1, h2'⟩ | ⟨l1, l2, fa, fc, h1, h2'⟩
      · rw [h1, h2']
      · rw [h1, h2']
        rfl

theorem valErrOf_congr {ls1 ls2 : List Listener}
    (h : loopOutcome (validateLoop ls1 false false)
      = loopOutcome (validateLoop ls2 false false)) :
    valErrOf ls1 = valErrOf ls2 := by
  unfold valErrOf validateListeners
  rcases loopOutcome_cases h with ⟨e, h1, h2⟩ | ⟨l1, l2, a, c, h1, h2⟩
  · rw [h1, h2]
  · rw [h1, h2]
    cases hb : a && !c <;> simp [hb]

/-- C9: a listener with an empty purpose list is validated identically to one
declaring a two-purpose list containing both "api" and "cluster": for any two
configurations differing only in that one listener, the validation outcome
(success or the specific error) and the api/cluster flags recorded for the
topology check are the same. -/
theorem c9_empty_purpose_defaulting (pre post : List Listener) (ad : String) (t : Bool)
    (ps : List String) (hlen : ps.length = 2) (hapi : "api" ∈ ps) (hcl : "cluster" ∈ ps) :
    valErrOf (pre ++ (⟨ad, [], t⟩ : Listener) :: post)
        = valErrOf (pre ++ (⟨ad, ps, t⟩ : Listener) :: post) ∧
    loopOutcome (validateLoop (pre ++ (⟨ad, [], t⟩ : Listener) :: post) false false)
        = loopOutcome (validateLoop (pre ++ (⟨ad, ps, t⟩ : Listener) :: post) false false) := by
  have hstep : stepOutcome (checkListener ⟨ad, [], t⟩)
      = stepOutcome (checkListener ⟨ad, ps, t⟩) := by
    rcases ps with _ | ⟨p, _ | ⟨q, _ | ⟨r, rest⟩⟩⟩
    · simp at hlen
    · simp at hlen
    · have hcond : ¬(¬("api" ∈ [p, q]) ∨ ¬("cluster" ∈ [p, q])) := by
        simp only [not_or, not_not]
        exact ⟨hapi, hcl⟩
      show stepOutcome (bothPurposeCheck ⟨ad, ["api", "cluster"], t⟩)
          = stepOutcome (bothPurposeCheck ⟨ad, [p, q], t⟩)
      simp only [bothPurposeCheck]
      rw [if_neg hcond, if_neg (by decide : ¬(¬("api" ∈ ["api", "cluster"]) ∨ ¬("cluster" ∈ ["api", "cluster"])))]
      cases t <;> rfl
    · simp only [List.length_cons] at hlen
      omega
  have hflags := validateLoop_congr _ _ hstep pre post false false
  exact ⟨valErrOf_congr hflags, hflags⟩

/-- Witness for C9 at a one-listener configuration, against the explicit
pair `["cluster", "api"]`. -/
theorem c9_witness :
    valErrOf ([] ++ (⟨"x", [], false⟩ : Listener) :: [])
        = valErrOf ([] ++ (⟨"x", ["cluster", "api"], false⟩ : Listener) :: []) ∧
    loopOutcome (validateLoop ([] ++ (⟨"x", [], false⟩ : Listener) :: []) false false)
        = loopOutcome (validateLoop ([] ++ (⟨"x", ["cluster", "api"], false⟩ : Listener) :: []) false false) :=
  c9_empty_purpose_defaulting [] [] "x" false ["cluster", "api"] (by decide) (by decide) (by decide)

/-! ## The topology check (api requires cluster) -/

theorem validateLoop_all_api (ls : List Listener) (h : ∀ ln ∈ ls, ln.purpose = ["api"])
    (a c : Bool) : validateLoop ls a c = .ok (ls, a || !ls.isEmpty, c) := by
  induction ls generalizing a c with
  | nil => simp [validateLoop]
  | cons ln rest ih =>
    have hln : checkListener ln = .ok (ln, true, false) := by
      obtain ⟨ad, ps, t⟩ := ln
      have hp : ps = ["api"] := h _ (List.mem_cons_self _ rest)
      subst hp
      rfl
    simp only [validateLoop, hln, Bool.or_false]
    rw [ih (fun x hx => h x (List.mem_cons_of_mem ln hx)) (a || true) c]
    simp

theorem validateLoop_all_cluster (ls : List Listener)
    (h : ∀ ln ∈ ls, ln.purpose = ["cluster"]) (a c : Bool) :
    validateLoop ls a c = .ok (ls, a, c || !ls.isEmpty) := by
  induction ls generalizing a c with
  | nil => simp [validateLoop]
  | cons ln rest ih =>
    have hln : checkListener ln = .ok (ln, false, true) := by
      obtain ⟨ad, ps, t⟩ := ln
      have hp : ps = ["cluster"] := h _ (List.mem_cons_self _ rest)
      subst hp
      rfl
    simp only [validateLoop, hln, Bool.or_false]
    rw [ih (fun x hx => h x (List.mem_cons_of_mem ln hx)) a (c || true)]
    simp

/-- A listener with at most two declared purposes that passes the
per-listener check yet serves no cluster purpose (neither an empty list nor a
list containing "cluster") must declare exactly `["api"]`. -/
theorem passes_no_cluster_is_api (ln : Listener) (hlen : ln.purpose.length ≤ 2)
    (hok : exceptOk (checkListener ln) = true)
    (hnc : ¬(ln.purpose = [] ∨ "cluster" ∈ ln.purpose)) : ln.purpose = ["api"] := by
  obtain ⟨ad, ps, t⟩ := ln
  push_neg at hnc
  obtain ⟨hne, hncl⟩ := hnc
  rcases ps with _ | ⟨p, _ | ⟨q, _ | ⟨r, rest⟩⟩⟩
  · exact absurd rfl hne
  · by_cases hp : p = "cluster"
    · subst hp
      exact absurd (List.mem_cons_self _ _) hncl
    · by_cases hp2 : p = "api"
      · subst hp2
        rfl
      · exfalso
        have herr : checkListener ⟨ad, [p], t⟩ = .error (.unknownPurpose p) := by
          simp only [checkListener]
          rw [if_neg hp, if_neg hp2]
        rw [herr] at hok
        simp [exceptOk] at hok
  · exfalso
    by_cases hq : "cluster" ∈ [p, q]
    · exact hncl hq
    · have herr : checkListener ⟨ad, [p, q], t⟩ = .error (.invalidPurposeSet [p, q]) := by
        show bothPurposeCheck ⟨ad, [p, q], t⟩ = _
        simp only [bothPurposeCheck]
        rw [if_pos (Or.inr hq)]
      rw [herr] at hok
      simp [exceptOk] at hok
  · simp only [List.length_cons] at hlen
    omega

/-- C3: over configurations whose listeners each declare at most two
purposes, if every listener passes the per-listener checks, some listener
serves the api purpose (an empty list or one containing "api") and no
listener anywhere serves the cluster purpose, validation fails with the
topology error; and a configuration of only `["cluster"]`-purposed listeners
passes the whole validation. -/
theorem c3_api_requires_cluster (ls : List Listener)
    (hlen : ∀ ln ∈ ls, ln.purpose.length ≤ 2) :
    ((∀ ln ∈ ls, exceptOk (checkListener ln) = true) →
      (∃ ln ∈ ls, ln.purpose = [] ∨ "api" ∈ ln.purpose) →
      (∀ ln ∈ ls, ¬(ln.purpose = [] ∨ "cluster" ∈ ln.purpose)) →
      validateListeners ls = .error .noClusterListener) ∧
    ((∀ ln ∈ ls, ln.purpose = ["cluster"]) →
      validateListeners ls = .ok ls) := by
  constructor
  · intro hok hex hnc
    have hall : ∀ ln ∈ ls, ln.purpose = ["api"] :=
      fun ln hln => passes_no_cluster_is_api ln (hlen ln hln) (hok ln hln) (hnc ln hln)
    have hemp : ls.isEmpty = false := by
      rcases hex with ⟨ln, hln, _⟩
      cases ls with
      | nil => exact absurd hln (List.not_mem_nil ln)
      | cons x xs => rfl
    have hloop := validateLoop_all_api ls hall false false
    rw [hemp] at hloop
    simp only [Bool.not_false, Bool.or_true] at hloop
    simp only [validateListeners, hloop]
    rfl
  · intro hall
    have hloop := validateLoop_all_cluster ls hall false false
    simp only [validateListeners, hloop, Bool.false_and]
    rfl

/-- Counterexample to C3 as stated: a listener declaring the three purposes
`["api", "b", "c"]` passes every per-listener rule (the switch has no case
for three purposes), serves the api purpose, no listener serves the cluster
purpose — yet the whole validation succeeds instead of failing. -/
theorem c3_counterexample :
    (∀ ln ∈ ([⟨"x", ["api", "b", "c"], false⟩] : List Listener),
      exceptOk (checkListener ln) = true) ∧
    (∃ ln ∈ ([⟨"x", ["api", "b", "c"], false⟩] : List Listener),
      ln.purpose = [] ∨ "api" ∈ ln.purpose) ∧
    (∀ ln ∈ ([⟨"x", ["api", "b", "c"], false⟩] : List Listener),
      ¬(ln.purpose = [] ∨ "cluster" ∈ ln.purpose)) ∧
    exceptOk (validateListeners [⟨"x", ["api", "b", "c"], false⟩]) = true := by
  decide

/-- Witness for C3: a lone api listener trips the topology error; a lone
cluster listener passes. -/
theorem c3_witness :
    validateListeners [⟨"x", ["api"], false⟩] = .error .noClusterListener ∧
    validateListeners [⟨"y", ["cluster"], false⟩] = .ok [⟨"y", ["cluster"], false⟩] :=
  ⟨(c3_api_requires_cluster _ (by decide)).1 (by decide) (by decide) (by decide),
   (c3_api_requires_cluster _ (by decide)).2 (by decide)⟩

/-- Witness for C4: a `["api", "api"]` pair is rejected; a dual-purpose
listener with TLS disabled is rejected, and accepted once TLS is enabled. -/
theorem c4_witness :
    checkListener ⟨"a", ["api", "api"], false⟩
        = .error (.invalidPurposeSet ["api", "api"]) ∧
    checkListener ⟨"a", [], true⟩ = .error .tlsDisabledOnDualPurpose ∧
    exceptOk (checkListener ⟨"a", ["cluster", "api"], false⟩) = true :=
  ⟨(c4_dual_purpose_rules _).1 (by decide) (by decide),
   ((c4_dual_purpose_rules _).2 (Or.inl rfl)).1 rfl,
   ((c4_dual_purpose_rules _).2 (Or.inr (by decide))).2 rfl⟩

/-! ## Shutdown actions across the exit paths of `Run` -/

/-- Counterexample to C2 as stated: when flag parsing fails, `Run` returns 1
at line 154, before the `defer c.RunShutdownFuncs(c.UI)` of line 246 is ever
registered, so no shutdown action runs on that exit path. -/
theorem c2_counterexample :
    (run ⟨false, true, true, true, [], true, true, false, true, true⟩).exitCode = 1 ∧
    (run ⟨false, true, true, true, [], true, true, false, true, true⟩).shutdownFuncsRan = false := by
  decide

/-- C2 amended: once every startup stage through the dev-database branch has
succeeded — the point where `defer c.RunShutdownFuncs(c.UI)` is registered —
the shutdown actions run on every remaining exit path of `Run` (a `Start`
failure returning 1, or the event loop exiting with 0), and the dev-database
teardown runs exactly when dev mode registered it. Stage failures before that
point return without running shutdown actions (see the counterexample). -/
theorem c2_shutdown_funcs_after_registration (e : RunEnv)
    (hp : e.parseOk = true) (hl : e.loggingOk = true) (hm : e.metricsOk = true)
    (hk : e.kmsOk = true) (hv : exceptOk (validateListeners e.listeners) = true)
    (hs : e.setupListenersOk = true) (hpid : e.storePidOk = true)
    (hdev : e.flagDev = true → e.createDevDbOk = true) :
    (run e).shutdownFuncsRan = true ∧ (run e).devDbTeardownRan = e.flagDev ∧
    (run e).exitCode = (if e.startOk = true then 0 else 1) := by
  have hdb : (e.flagDev && !e.createDevDbOk) = false := by
    cases hd : e.flagDev with
    | false => rfl
    | true => rw [hdev hd]; rfl
  cases hvv : validateListeners e.listeners with
  | error f =>
    rw [hvv] at hv
    simp [exceptOk] at hv
  | ok ls2 =>
    cases hst : e.startOk with
    | true => simp [run, hp, hl, hm, hk, hs, hpid, hvv, hdb, hst]
    | false => simp [run, hp, hl, hm, hk, hs, hpid, hvv, hdb, hst]

/-- Witness for C2 at a dev-mode environment whose `Start` fails. -/
theorem c2_witness :
    (run ⟨true, true, true, true, [], true, true, true, true, false⟩).shutdownFuncsRan = true ∧
    (run ⟨true, true, true, true, [], true, true, true, true, false⟩).devDbTeardownRan
        = (⟨true, true, true, true, [], true, true, true, true, false⟩ : RunEnv).flagDev ∧
    (run ⟨true, true, true, true, [], true, true, true, true, false⟩).exitCode
        = (if (⟨true, true, true, true, [], true, true, true, true, false⟩ : RunEnv).startOk = true then 0 else 1) :=
  c2_shutdown_funcs_after_registration _ rfl rfl rfl rfl (by decide) rfl rfl (fun _ => rfl)

/-! ## The shutdown guarantee of the event loop -/

theorem runLoop_triggered (fc : String) (s : LoopState) (h : s.shutdownTriggered = true)
    (evs : List Event) : runLoop fc s evs = (s, []) := by
  cases evs with
  | nil => rfl
  | cons e rest => simp [runLoop, h]

theorem count_handleSighup (fc : String) (load : Except Unit (Option Config)) :
    (handleSighup fc load).count Action.controllerShutdown = 0 := by
  unfold handleSighup
  split
  · rfl
  · split
    · rfl
    · rfl
    · split
      · rfl
      · split
        · rfl
        · rfl

theorem runLoop_count (fc : String) :
    ∀ (evs : List Event) (s : LoopState), s.shutdownTriggered = false →
      (runLoop fc s evs).2.count Action.controllerShutdown
        = (if Event.shutdown ∈ evs then 1 else 0) := by
  intro evs
  induction evs with
  | nil =>
    intro s h
    simp [runLoop]
  | cons e rest ih =>
    intro s h
    cases e with
    | shutdown =>
      simp only [runLoop, h, Bool.false_eq_true, if_false, processEvent]
      rw [runLoop_triggered fc _ rfl rest]
      simp [List.count_cons]
    | sighup load =>
      simp only [runLoop, h, Bool.false_eq_true, if_false, processEvent]
      rcases hr : runLoop fc s rest with ⟨s3, acts2⟩
      have ih2 := ih s h
      rw [hr] at ih2
      simp only [List.count_append, List.count_cons, count_handleSighup, ih2]
      simp [List.mem_cons]
    | sigusr2 =>
      simp only [runLoop, h, Bool.false_eq_true, if_false, processEvent]
      rcases hr : runLoop fc s rest with ⟨s3, acts2⟩
      have ih2 := ih s h
      rw [hr] at ih2
      simp only [List.count_append, List.count_cons, ih2]
      simp [List.mem_cons]

theorem runLoop_guard (fc : String) :
    ∀ (evs : List Event) (s : LoopState),
      (runLoop fc s evs).1.guardConsumed = s.guardConsumed := by
  intro evs
  induction evs with
  | nil => intro s; rfl
  | cons e rest ih =>
    intro s
    by_cases h : s.shutdownTriggered = true
    · simp [runLoop, h]
    · have h2 : s.shutdownTriggered = false := by
        cases hb : s.shutdownTriggered
        · rfl
        · exact absurd hb h
      cases e with
      | shutdown =>
        simp only [runLoop, h2, Bool.false_eq_true, if_false, processEvent]
        rw [runLoop_triggered fc _ rfl rest]
      | sighup load =>
        simp only [runLoop, h2, Bool.false_eq_true, if_false, processEvent]
        rcases hr : runLoop fc s rest with ⟨s3, acts2⟩
        have ih2 := ih s
        rw [hr] at ih2
        exact ih2
      | sigusr2 =>
        simp only [runLoop, h2, Bool.false_eq_true, if_false, processEvent]
        rcases hr : runLoop fc s rest with ⟨s3, acts2⟩
        have ih2 := ih s
        rw [hr] at ih2
        exact ih2

/-- Counterexample to C1's "under the one-shot guard": processing a shutdown
trigger invokes `controller.Shutdown()` (line 351 calls it directly), yet the
`cleanupGuard` declared at line 33 is never consumed — no call site uses it,
so the teardown is not executed under the one-shot guard. -/
theorem c1_counterexample :
    (runLoop "" initialLoopState [.shutdown]).2.count Action.controllerShutdown = 1 ∧
    (runLoop "" initialLoopState [.shutdown]).1.guardConsumed = false := by
  decide

/-- C1 amended: per call to `WaitForInterrupt`, `controller.Shutdown()` runs
exactly once when a shutdown trigger is processed and at most once in total —
the loop exits via `shutdownTriggered`, so later triggers are never handled —
but the once-guarantee comes from the loop flag, not from the (never
consumed) `cleanupGuard`. -/
theorem c1_shutdown_exactly_once (fc : String) (evs : List Event) :
    (runLoop fc initialLoopState evs).2.count Action.controllerShutdown ≤ 1 ∧
    (Event.shutdown ∈ evs →
      (runLoop fc initialLoopState evs).2.count Action.controllerShutdown = 1) ∧
    (runLoop fc initialLoopState evs).1.guardConsumed = false := by
  have hc := runLoop_count fc evs initialLoopState rfl
  refine ⟨?_, fun hm => ?_, runLoop_guard fc evs initialLoopState⟩
  · rw [hc]
    split <;> simp
  · rw [hc, if_pos hm]

/-- Witness for C1 with two queued shutdown triggers. -/
theorem c1_witness :
    (runLoop "" initialLoopState [.shutdown, .shutdown]).2.count Action.controllerShutdown ≤ 1 ∧
    (runLoop "" initialLoopState [.shutdown, .shutdown]).2.count Action.controllerShutdown = 1 ∧
    (runLoop "" initialLoopState [.shutdown, .shutdown]).1.guardConsumed = false :=
  ⟨(c1_shutdown_exactly_once "" [.shutdown, .shutdown]).1,
   (c1_shutdown_exactly_once "" [.shutdown, .shutdown]).2.1 (by decide),
   (c1_shutdown_exactly_once "" [.shutdown, .shutdown]).2.2⟩

/-- C6: when no configuration path is set, or re-reading the configuration
file fails, or it yields no configuration, the SIGHUP handler still reaches
the `RUNRELOADFUNCS` label (the reload callbacks run), the event loop is not
terminated (`shutdownTriggered` is untouched), and — when a path was set —
the failure is logged. -/
theorem c6_reload_best_effort (fc : String) (load : Except Unit (Option Config)) (s : LoopState)
    (h : fc = "" ∨ (∃ u, load = .error u) ∨ load = .ok none) :
    Action.runReloadFuncs ∈ handleSighup fc load ∧
    (processEvent fc s (.sighup load)).1.shutdownTriggered = s.shutdownTriggered ∧
    (fc ≠ "" → ∃ m, Action.logError m ∈ handleSighup fc load) := by
  refine ⟨?_, rfl, ?_⟩
  · rcases h with h | ⟨u, h⟩ | h
    · subst h
      simp [handleSighup]
    · subst h
      by_cases hfc : fc = "" <;> simp [handleSighup, hfc]
    · subst h
      by_cases hfc : fc = "" <;> simp [handleSighup, hfc]
  · intro hfc
    rcases h with h | ⟨u, h⟩ | h
    · exact absurd h hfc
    · subst h
      exact ⟨"could not reload config", by simp [handleSighup, hfc]⟩
    · subst h
      exact ⟨"no config found at reload time", by simp [handleSighup, hfc]⟩

/-- Witness for C6: a set path whose re-read fails. -/
theorem c6_witness :
    Action.runReloadFuncs ∈ handleSighup "c.hcl" (.error ()) ∧
    (processEvent "c.hcl" initialLoopState (.sighup (.error ()))).1.shutdownTriggered
        = initialLoopState.shutdownTriggered ∧
    ("c.hcl" ≠ "" → ∃ m, Action.logError m ∈ handleSighup "c.hcl" (.error ())) :=
  c6_reload_best_effort "c.hcl" (.error ()) initialLoopState (Or.inr (Or.inl ⟨(), rfl⟩))

/-! ## Aggregation and selection in `Reload` -/

/-- The same registrations with every callback's failure erased (identities
kept): used to state that which callbacks run does not depend on which fail. -/
def scrubFailures (regs : List (String × Option CB)) : List (String × Option CB) :=
  regs.map (fun r => (r.1, r.2.map (fun cb => (⟨cb.id, none⟩ : CB))))

theorem runFuncs_fst (l : List (Option CB)) : (runFuncs l).1 = l.reduceOption := by
  induction l with
  | nil => rfl
  | cons f rest ih =>
    rcases hr : runFuncs rest with ⟨inv, errs⟩
    rw [hr] at ih
    cases f with
    | none => simp [runFuncs, hr, ih, List.reduceOption_cons_of_none]
    | some cb =>
      cases hc : cb.result with
      | none => simp [runFuncs, hr, hc, ih, List.reduceOption_cons_of_some]
      | some e => simp [runFuncs, hr, hc, ih, List.reduceOption_cons_of_some]

theorem runFuncs_snd (l : List (Option CB)) :
    (runFuncs l).2 = (runFuncs l).1.filterMap
      (fun cb => cb.result.map (fun e => "error encountered reloading listener: " ++ e)) := by
  induction l with
  | nil => rfl
  | cons f rest ih =>
    rcases hr : runFuncs rest with ⟨inv, errs⟩
    rw [hr] at ih
    cases f with
    | none => simpa [runFuncs, hr] using ih
    | some cb =>
      cases hc : cb.result with
      | none => simp [runFuncs, hr, hc, ih]
      | some e => simp [runFuncs, hr, hc, ih]

theorem funcsFor_scrub (k : String) (regs : List (String × Option CB)) :
    funcsFor k (scrubFailures regs)
      = (funcsFor k regs).map (Option.map (fun cb => (⟨cb.id, none⟩ : CB))) := by
  induction regs with
  | nil => rfl
  | cons r rest ih =>
    obtain ⟨k2, f⟩ := r
    by_cases hk : k2 = k
    · subst hk
      simp only [scrubFailures, List.map_cons] at *
      simp only [funcsFor, List.filter_cons] at *
      simp [ih]
    · have hb : (k2 == k) = false := by
        cases hbb : k2 == k
        · rfl
        · exact absurd (by simpa using hbb) hk
      simp only [scrubFailures, List.map_cons] at *
      simp only [funcsFor, List.filter_cons] at *
      simpa [hb] using ih

theorem runFuncs_scrub_ids (l : List (Option CB)) :
    (runFuncs (l.map (Option.map (fun cb => (⟨cb.id, none⟩ : CB))))).1.map CB.id
      = (runFuncs l).1.map CB.id := by
  rw [runFuncs_fst, runFuncs_fst]
  induction l with
  | nil => rfl
  | cons f rest ih =>
    cases f with
    | none => simp [List.reduceOption_cons_of_none, ih]
    | some cb => simp [List.reduceOption_cons_of_some, ih]

theorem reloadRun_scrub_ids (regs : List (String × Option CB)) (ko : List String) :
    (reloadRun (scrubFailures regs) ko).1.map CB.id = (reloadRun regs ko).1.map CB.id := by
  induction ko with
  | nil => rfl
  | cons k ks ih =>
    by_cases hp : hasPrefixStr "listener|" k = true
    · simp only [reloadRun, hp, if_true, List.map_append, funcsFor_scrub, runFuncs_scrub_ids, ih]
    · have hp2 : hasPrefixStr "listener|" k = false := by
        cases hpb : hasPrefixStr "listener|" k
        · rfl
        · exact absurd hpb hp
      simpa [reloadRun, hp2] using ih

theorem reloadRun_snd_spec (regs : List (String × Option CB)) (ko : List String) :
    (reloadRun regs ko).2 = (reloadRun regs ko).1.filterMap
      (fun cb => cb.result.map (fun e => "error encountered reloading listener: " ++ e)) := by
  induction ko with
  | nil => rfl
  | cons k ks ih =>
    by_cases hp : hasPrefixStr "listener|" k = true
    · simp only [reloadRun, hp, if_true, List.filterMap_append, runFuncs_snd, ih]
    · have hp2 : hasPrefixStr "listener|" k = false := by
        cases hpb : hasPrefixStr "listener|" k
        · rfl
        · exact absurd hpb hp
      simpa [reloadRun, hp2] using ih

/-- C5: which callbacks `Reload` invokes does not depend on which of them
fail (erasing every failure leaves the invocation sequence unchanged, so an
earlier failure never prevents a later callback from running); the collected
errors are exactly the wrapped failures of the invoked callbacks; and
`ErrorOrNil` makes `Reload` return no error exactly when no invoked callback
failed. -/
theorem c5_reload_error_aggregation (regs : List (String × Option CB)) (ko : List String) :
    (reload (scrubFailures regs) ko).1.map CB.id = (reload regs ko).1.map CB.id ∧
    (reloadRun regs ko).2 = (reloadRun regs ko).1.filterMap
      (fun cb => cb.result.map (fun e => "error encountered reloading listener: " ++ e)) ∧
    ((reload regs ko).2 = none ↔ ∀ cb ∈ (reload regs ko).1, cb.result = none) := by
  refine ⟨reloadRun_scrub_ids regs ko, reloadRun_snd_spec regs ko, ?_⟩
  show (if (reloadRun regs ko).2 = [] then none else some (reloadRun regs ko).2) = none
      ↔ ∀ cb ∈ (reloadRun regs ko).1, cb.result = none
  rw [reloadRun_snd_spec regs ko]
  constructor
  · intro h cb hcb
    by_cases he : (reloadRun regs ko).1.filterMap
        (fun cb => cb.result.map (fun e => "error encountered reloading listener: " ++ e)) = []
    · have := List.filterMap_eq_nil_iff.mp he cb hcb
      cases hres : cb.result with
      | none => rfl
      | some e2 =>
        rw [hres] at this
        simp at this
    · rw [if_neg he] at h
      exact absurd h (by simp)
  · intro h
    have he : (reloadRun regs ko).1.filterMap
        (fun cb => cb.result.map (fun e => "error encountered reloading listener: " ++ e)) = [] := by
      apply List.filterMap_eq_nil_iff.mpr
      intro cb hcb
      rw [h cb hcb]
      rfl
    rw [if_pos he]

/-- An example of C5's shape from the spec: two callbacks under one key, the
first failing, the second succeeding — both run, one aggregate error. -/
theorem reload_two_callbacks_example :
    reload [("listener|x", some ⟨1, some "boom"⟩), ("listener|x", some ⟨2, none⟩)]
        ["listener|x"]
      = ([⟨1, some "boom"⟩, ⟨2, none⟩], some ["error encountered reloading listener: boom"]) := by
  decide

theorem some_mem_funcsFor (k : String) (regs : List (String × Option CB)) (cb : CB) :
    some cb ∈ funcsFor k regs ↔ (k, some cb) ∈ regs := by
  unfold funcsFor
  rw [List.mem_map]
  constructor
  · rintro ⟨⟨r1, r2⟩, hr, h2⟩
    rw [List.mem_filter] at hr
    obtain ⟨hmem, hbeq⟩ := hr
    have h1 : r1 = k := by simpa using hbeq
    subst h1
    have h2' : r2 = some cb := h2
    subst h2'
    exact hmem
  · intro hm
    exact ⟨(k, some cb), List.mem_filter.mpr ⟨hm, by simp⟩, rfl⟩

theorem mem_reloadRun (regs : List (String × Option CB)) (ko : List String) (cb : CB) :
    cb ∈ (reloadRun regs ko).1 ↔
      ∃ k ∈ ko, hasPrefixStr "listener|" k = true ∧ some cb ∈ funcsFor k regs := by
  induction ko with
  | nil => simp [reloadRun]
  | cons k ks ih =>
    by_cases hp : hasPrefixStr "listener|" k = true
    · simp only [reloadRun, hp, if_true, List.mem_append, runFuncs_fst,
        List.reduceOption_mem_iff, ih]
      constructor
      · rintro (hc | ⟨k2, hk2, hp2, hc⟩)
        · exact ⟨k, List.mem_cons_self k ks, hp, hc⟩
        · exact ⟨k2, List.mem_cons_of_mem k hk2, hp2, hc⟩
      · rintro ⟨k2, hk2, hp2, hc⟩
        rcases List.mem_cons.mp hk2 with rfl | hk2
        · exact Or.inl hc
        · exact Or.inr ⟨k2, hk2, hp2, hc⟩
    · have hp2 : hasPrefixStr "listener|" k = false := by
        cases hpb : hasPrefixStr "listener|" k
        · rfl
        · exact absurd hpb hp
      rw [show reloadRun regs (k :: ks) = reloadRun regs ks by simp [reloadRun, hp2]]
      rw [ih]
      constructor
      · rintro ⟨k2, hk2, hq, hc⟩
        exact ⟨k2, List.mem_cons_of_mem k hk2, hq, hc⟩
      · rintro ⟨k2, hk2, hq, hc⟩
        rcases List.mem_cons.mp hk2 with rfl | hk2
        · rw [hq] at hp2
          exact absurd hp2 (by simp)
        · exact ⟨k2, hk2, hq, hc⟩

/-- C7 amended: for every possible map iteration order, `Reload` invokes
exactly the non-nil callbacks registered under `"listener|"`-prefixed keys —
no callback under any other key ever runs — and the callbacks of one key run
in registration order; the interleaving across distinct keys follows the
map's unspecified iteration order, not the global registration order (see the
counterexample). -/
theorem c7_listener_keys_only (regs : List (String × Option CB)) (ko : List String)
    (h : validIterationOrder regs ko) :
    (∀ cb : CB, cb ∈ (reload regs ko).1 ↔
      ∃ k, (k, some cb) ∈ regs ∧ hasPrefixStr "listener|" k = true) ∧
    (∀ k, hasPrefixStr "listener|" k = true →
      (reloadRun regs [k]).1 = (funcsFor k regs).reduceOption) := by
  constructor
  · intro cb
    show cb ∈ (reloadRun regs ko).1 ↔ _
    rw [mem_reloadRun]
    constructor
    · rintro ⟨k, hk, hp, hc⟩
      exact ⟨k, (some_mem_funcsFor k regs cb).mp hc, hp⟩
    · rintro ⟨k, hreg, hp⟩
      have hkeys : k ∈ regs.map (fun r => r.1) := List.mem_map.mpr ⟨(k, some cb), hreg, rfl⟩
      exact ⟨k, (h.2 k).mpr hkeys, hp, (some_mem_funcsFor k regs cb).mpr hreg⟩
  · intro k hp
    simp [reloadRun, hp, runFuncs_fst]

/-- Counterexample to C7's "in registration order": with callback 1
registered under `"listener|b"` before callback 2 under `"listener|a"`, the
iteration order visiting `"listener|a"` first — a legitimate Go map iteration
order — invokes them as `[2, 1]`, not in the registration order `[1, 2]`. -/
theorem c7_counterexample :
    validIterationOrder
        [("listener|b", some ⟨1, none⟩), ("listener|a", some ⟨2, none⟩)]
        ["listener|a", "listener|b"] ∧
    (reload [("listener|b", some ⟨1, none⟩), ("listener|a", some ⟨2, none⟩)]
        ["listener|a", "listener|b"]).1.map CB.id = [2, 1] ∧
    registrationOrderIds [("listener|b", some ⟨1, none⟩), ("listener|a", some ⟨2, none⟩)]
        = [1, 2] ∧
    ([2, 1] : List Nat) ≠ [1, 2] := by
  refine ⟨⟨by decide, fun k => ?_⟩, by decide, by decide, by decide⟩
  simp only [List.map_cons, List.map_nil, List.mem_cons, List.not_mem_nil]
  tauto

/-- Witness for C7 on a one-key registry. -/
theorem c7_witness :
    (∀ cb : CB, cb ∈ (reload [("listener|x", some (⟨5, none⟩ : CB))] ["listener|x"]).1 ↔
      ∃ k, (k, some cb) ∈ [("listener|x", some (⟨5, none⟩ : CB))] ∧
        hasPrefixStr "listener|" k = true) ∧
    (∀ k, hasPrefixStr "listener|" k = true →
      (reloadRun [("listener|x", some (⟨5, none⟩ : CB))] [k]).1
        = (funcsFor k [("listener|x", some (⟨5, none⟩ : CB))]).reduceOption) :=
  c7_listener_keys_only _ _ ⟨by decide, fun k => Iff.rfl⟩

/-! ## The Config frame of the supervisor -/

/-- The relation between a configured listener and what `Run`'s validation
loop leaves behind: address and TLS flag untouched, purpose untouched except
that an empty list is rewritten to `["api", "cluster"]`. -/
def listenerFrameVal (l l2 : Listener) : Prop :=
  l2.address = l.address ∧ l2.tlsDisable = l.tlsDisable ∧
    (l2.purpose = l.purpose ∨ (l.purpose = [] ∧ l2.purpose = ["api", "cluster"]))

/-- The relation between a configured listener and what the dev-mode loop of
`ParseFlagsAndConfig` leaves behind: purpose and TLS flag untouched, address
untouched except for single-purpose api/cluster listeners overridden from the
matching nonempty dev flag. -/
def listenerFrameDev (apiAddr clusterAddr : String) (l l2 : Listener) : Prop :=
  l2.purpose = l.purpose ∧ l2.tlsDisable = l.tlsDisable ∧
    (l2.address = l.address ∨ (l.purpose = ["api"] ∧ l2.address = apiAddr) ∨
      (l.purpose = ["cluster"] ∧ l2.address = clusterAddr))

theorem checkListener_frame (ln ln2 : Listener) (a c : Bool)
    (h : checkListener ln = .ok (ln2, a, c)) : listenerFrameVal ln ln2 := by
  obtain ⟨ad, ps, t⟩ := ln
  rcases ps with _ | ⟨p, _ | ⟨q, _ | ⟨r, rest⟩⟩⟩
  · have h2 : bothPurposeCheck ⟨ad, ["api", "cluster"], t⟩ = .ok (ln2, a, c) := h
    simp only [bothPurposeCheck] at h2
    split at h2
    · exact absurd h2 (by simp)
    · split at h2
      · exact absurd h2 (by simp)
      · have h3 := Except.ok.inj h2
        have hl : ln2 = ⟨ad, ["api", "cluster"], t⟩ := (congrArg Prod.fst h3).symm
        subst hl
        exact ⟨rfl, rfl, Or.inr ⟨rfl, rfl⟩⟩
  · by_cases hp : p = "cluster"
    · subst hp
      have h3 := Except.ok.inj (show Except.ok ((⟨ad, ["cluster"], t⟩ : Listener), false, true)
          = .ok (ln2, a, c) from h)
      have hl : ln2 = ⟨ad, ["cluster"], t⟩ := (congrArg Prod.fst h3).symm
      subst hl
      exact ⟨rfl, rfl, Or.inl rfl⟩
    · by_cases hp2 : p = "api"
      · subst hp2
        have h3 := Except.ok.inj (show Except.ok ((⟨ad, ["api"], t⟩ : Listener), true, false)
            = .ok (ln2, a, c) from h)
        have hl : ln2 = ⟨ad, ["api"], t⟩ := (congrArg Prod.fst h3).symm
        subst hl
        exact ⟨rfl, rfl, Or.inl rfl⟩
      · have herr : checkListener ⟨ad, [p], t⟩ = .error (.unknownPurpose p) := by
          simp only [checkListener]
          rw [if_neg hp, if_neg hp2]
        rw [herr] at h
        exact absurd h (by simp)
  · have h2 : bothPurposeCheck ⟨ad, [p, q], t⟩ = .ok (ln2, a, c) := h
    simp only [bothPurposeCheck] at h2
    split at h2
    · exact absurd h2 (by simp)
    · split at h2
      · exact absurd h2 (by simp)
      · have h3 := Except.ok.inj h2
        have hl : ln2 = ⟨ad, [p, q], t⟩ := (congrArg Prod.fst h3).symm
        subst hl
        exact ⟨rfl, rfl, Or.inl rfl⟩
  · have h3 := Except.ok.inj (show Except.ok ((⟨ad, p :: q :: r :: rest, t⟩ : Listener),
        false, false) = .ok (ln2, a, c) from h)
    have hl : ln2 = ⟨ad, p :: q :: r :: rest, t⟩ := (congrArg Prod.fst h3).symm
    subst hl
    exact ⟨rfl, rfl, Or.inl rfl⟩

theorem validateLoop_frame : ∀ (ls : List Listener) (ls2 : List Listener) (a c fa fc : Bool),
    validateLoop ls a c = .ok (ls2, fa, fc) → List.Forall₂ listenerFrameVal ls ls2 := by
  intro ls
  induction ls with
  | nil =>
    intro ls2 a c fa fc h
    have h3 := Except.ok.inj (show Except.ok (([] : List Listener), a, c)
        = .ok (ls2, fa, fc) from h)
    have hl : ls2 = [] := (congrArg Prod.fst h3).symm
    subst hl
    exact List.Forall₂.nil
  | cons ln rest ih =>
    intro ls2 a c fa fc h
    simp only [validateLoop] at h
    cases hc : checkListener ln with
    | error e =>
      rw [hc] at h
      exact absurd h (by simp)
    | ok v =>
      obtain ⟨ln2, xa, xc⟩ := v
      rw [hc] at h
      dsimp only at h
      cases hrest : validateLoop rest (a || xa) (c || xc) with
      | error e =>
        rw [hrest] at h
        exact absurd h (by simp)
      | ok w =>
        obtain ⟨rest2, wa, wc⟩ := w
        rw [hrest] at h
        dsimp only at h
        have h3 := Except.ok.inj h
        have hl : ls2 = ln2 :: rest2 := (congrArg Prod.fst h3).symm
        subst hl
        exact List.Forall₂.cons (checkListener_frame ln ln2 xa xc hc)
          (ih rest2 (a || xa) (c || xc) wa wc hrest)

theorem applyDevListenAddrs_frame (apiAddr clusterAddr : String) (ls : List Listener) :
    List.Forall₂ (listenerFrameDev apiAddr clusterAddr) ls
      (applyDevListenAddrs apiAddr clusterAddr ls) := by
  induction ls with
  | nil => exact List.Forall₂.nil
  | cons l rest ih =>
    refine List.Forall₂.cons ?_ ih
    obtain ⟨ad, ps, t⟩ := l
    rcases ps with _ | ⟨p, _ | ⟨q, qs⟩⟩
    · exact ⟨rfl, rfl, Or.inl rfl⟩
    · show listenerFrameDev apiAddr clusterAddr ⟨ad, [p], t⟩
        (if p = "api" then (if apiAddr ≠ "" then ⟨apiAddr, [p], t⟩ else ⟨ad, [p], t⟩)
         else if p = "cluster" then
          (if clusterAddr ≠ "" then ⟨clusterAddr, [p], t⟩ else ⟨ad, [p], t⟩)
         else ⟨ad, [p], t⟩)
      by_cases hp : p = "api"
      · subst hp
        rw [if_pos rfl]
        by_cases ha : apiAddr ≠ ""
        · rw [if_pos ha]
          exact ⟨rfl, rfl, Or.inr (Or.inl ⟨rfl, rfl⟩)⟩
        · rw [if_neg ha]
          exact ⟨rfl, rfl, Or.inl rfl⟩
      · rw [if_neg hp]
        by_cases hp2 : p = "cluster"
        · subst hp2
          rw [if_pos rfl]
          by_cases hcl : clusterAddr ≠ ""
          · rw [if_pos hcl]
            exact ⟨rfl, rfl, Or.inr (Or.inr ⟨rfl, rfl⟩)⟩
          · rw [if_neg hcl]
            exact ⟨rfl, rfl, Or.inl rfl⟩
        · rw [if_neg hp2]
          exact ⟨rfl, rfl, Or.inl rfl⟩
    · exact ⟨rfl, rfl, Or.inl rfl⟩

/-- Counterexample to C8 as stated: `Run`'s validation loop rewrites an empty
purpose list to `["api", "cluster"]` in place (line 207), and in dev mode
`ParseFlagsAndConfig` overwrites a single-purpose api listener's address from
the dev flag (line 302) — both mutate Config fields other than
LogLevel/LogFormat. -/
theorem c8_counterexample :
    validateListeners [⟨"a", [], false⟩] = .ok [⟨"a", ["api", "cluster"], false⟩] ∧
    (⟨"a", ["api", "cluster"], false⟩ : Listener).purpose ≠ (⟨"a", [], false⟩ : Listener).purpose ∧
    applyDevListenAddrs "127.0.0.1:9200" "" [⟨"a", ["api"], false⟩]
        = [⟨"127.0.0.1:9200", ["api"], false⟩] ∧
    (⟨"127.0.0.1:9200", ["api"], false⟩ : Listener).address ≠ (⟨"a", ["api"], false⟩ : Listener).address := by
  decide

/-- C8 amended: the supervisor is read-only on the Config except for
LogLevel/LogFormat on reload and exactly two listener mutations — the
validation loop's defaulting of an empty purpose list to `["api", "cluster"]`
and the dev-mode address overrides — and those two leave every other listener
field untouched. -/
theorem c8_config_mutation_frame :
    (∀ ls ls2 : List Listener, validateListeners ls = .ok ls2 →
      List.Forall₂ listenerFrameVal ls ls2) ∧
    (∀ (apiAddr clusterAddr : String) (ls : List Listener),
      List.Forall₂ (listenerFrameDev apiAddr clusterAddr) ls
        (applyDevListenAddrs apiAddr clusterAddr ls)) := by
  constructor
  · intro ls ls2 h
    unfold validateListeners at h
    cases hl : validateLoop ls false false with
    | error e =>
      rw [hl] at h
      exact absurd h (by simp)
    | ok w =>
      obtain ⟨ls3, fa, fc⟩ := w
      rw [hl] at h
      dsimp only at h
      split at h
      · exact absurd h (by simp)
      · have hls : ls2 = ls3 := (Except.ok.inj h).symm
        subst hls
        exact validateLoop_frame ls ls2 false false fa fc hl
  · exact applyDevListenAddrs_frame

/-- Witness for C8 applying the frame to a defaulted listener. -/
theorem c8_witness :
    List.Forall₂ listenerFrameVal [(⟨"a", [], false⟩ : Listener)]
      [⟨"a", ["api", "cluster"], false⟩] :=
  c8_config_mutation_frame.1 _ _ (by decide)

end Watchtower
